import Mathlib

/-!
Shallow embedding of the Naviin portfolio ledger and conditional-order
execution engine (src/naviin/src/{AppState,Finance,FinanceProvider,Orders}.rs).

Modelling conventions:
* Monetary values, prices and quantities (`rust_decimal::Decimal` in
  AppState.rs/Orders.rs, `f64` in Finance.rs) are modelled exactly as `ℚ`;
  the ledger arithmetic consists of `+ - * /` and comparisons only.
* `HashMap<Symbol, Holding>` is modelled as an association list with the
  usual get/insert/remove semantics (iteration order is never relied on by
  the embedded operations).
* `Vec::sort_by` / `sort_by_key` (stable sorts) are modelled as Mathlib's
  stable `List.insertionSort`.
* The price gateways `FinanceProvider::curr_price` / `previous_price_close`
  take the provider result as an `Option ℚ` argument (`none` = network/parse
  failure) and map failure to `0`, exactly as the Rust code maps `Err(_)` to
  `Decimal::ZERO`.
* `Utc::now().timestamp()` is threaded through as an explicit `now : ℤ`
  argument at trade-creation sites.
* Functions whose only other effect is printing are modelled by their state
  effect; where a claim is about the rejection branch (`add_open_order`),
  the branch taken is returned alongside the state.
-/

namespace Naviin

abbrev Symbol := String

/-- Finance.rs `Holding`: one symbol's position. -/
structure Holding where
  name : Symbol
  quantity : ℚ
  avg_cost : ℚ
deriving DecidableEq

/-- Orders.rs `Side`. -/
inductive Side where
  | Buy
  | Sell
deriving DecidableEq

/-- Orders.rs `Trade`: a completed transaction record. -/
structure Trade where
  symbol : Symbol
  quantity : ℚ
  price_per : ℚ
  side : Side
  timestamp : ℤ
deriving DecidableEq

/-- Orders.rs `Trade::buy` (timestamp passed explicitly for `Utc::now`). -/
def Trade.buy (symbol : Symbol) (quantity price_per : ℚ) (now : ℤ) : Trade :=
  ⟨symbol, quantity, price_per, Side.Buy, now⟩

/-- Orders.rs `Trade::sell`. -/
def Trade.sell (symbol : Symbol) (quantity price_per : ℚ) (now : ℤ) : Trade :=
  ⟨symbol, quantity, price_per, Side.Sell, now⟩

/-- Orders.rs `OpenOrder`: a pending conditional order. -/
inductive OpenOrder where
  | BuyLimit (symbol : Symbol) (quantity price : ℚ) (timestamp : ℤ)
  | StopLoss (symbol : Symbol) (quantity price : ℚ) (timestamp : ℤ)
  | TakeProfit (symbol : Symbol) (quantity price : ℚ) (timestamp : ℤ)
deriving DecidableEq

/-- Orders.rs `OpenOrder::get_symbol`. -/
def OpenOrder.get_symbol : OpenOrder → Symbol
  | .BuyLimit symbol _ _ _ => symbol
  | .StopLoss symbol _ _ _ => symbol
  | .TakeProfit symbol _ _ _ => symbol

/-- Orders.rs `OpenOrder::get_qty`. -/
def OpenOrder.get_qty : OpenOrder → ℚ
  | .BuyLimit _ quantity _ _ => quantity
  | .StopLoss _ quantity _ _ => quantity
  | .TakeProfit _ quantity _ _ => quantity

/-- Orders.rs `OpenOrder::get_price_per`. -/
def OpenOrder.get_price_per : OpenOrder → ℚ
  | .BuyLimit _ _ price _ => price
  | .StopLoss _ _ price _ => price
  | .TakeProfit _ _ price _ => price

/-- Orders.rs `OpenOrder::get_timestamp`. -/
def OpenOrder.get_timestamp : OpenOrder → ℤ
  | .BuyLimit _ _ _ timestamp => timestamp
  | .StopLoss _ _ _ timestamp => timestamp
  | .TakeProfit _ _ _ timestamp => timestamp

/-- Orders.rs `OpenOrder::get_side`: side is derived from the variant. -/
def OpenOrder.get_side : OpenOrder → Side
  | .BuyLimit _ _ _ _ => Side.Buy
  | .StopLoss _ _ _ _ => Side.Sell
  | .TakeProfit _ _ _ _ => Side.Sell

/-- `HashMap<Symbol, Holding>` modelled as an association list. -/
abbrev HoldingsMap := List (Symbol × Holding)

/-- `HashMap::get`. -/
def hmGet : HoldingsMap → Symbol → Option Holding
  | [], _ => none
  | (k, v) :: rest, ticker => if k = ticker then some v else hmGet rest ticker

/-- `HashMap::insert` (replace the entry if the key is present, else add it). -/
def hmInsert : HoldingsMap → Symbol → Holding → HoldingsMap
  | [], ticker, v => [(ticker, v)]
  | (k, v') :: rest, ticker, v =>
    if k = ticker then (ticker, v) :: rest else (k, v') :: hmInsert rest ticker v

/-- `HashMap::remove`. -/
def hmRemove (m : HoldingsMap) (ticker : Symbol) : HoldingsMap :=
  m.filter (fun p => p.1 ≠ ticker)

/-- AppState.rs `AppState`: cash, holdings, trade log, open-order book. -/
structure AppState where
  cash_balance : ℚ
  holdings : HoldingsMap
  trades : List Trade
  open_orders : List OpenOrder
deriving DecidableEq

/-- AppState.rs `AppState::new`. -/
def AppState.new : AppState := ⟨0, [], [], []⟩

/-- AppState.rs `deposit`. -/
def deposit (s : AppState) (amount : ℚ) : AppState :=
  { s with cash_balance := s.cash_balance + amount }

/-- AppState.rs `withdraw` (validated; the println branches return unchanged). -/
def withdraw (s : AppState) (amount : ℚ) : AppState :=
  if amount ≤ 0 then s
  else if amount > s.cash_balance then s
  else { s with cash_balance := s.cash_balance - amount }

/-- AppState.rs `withdraw_purchase` (no balance validation). -/
def withdraw_purchase (s : AppState) (amount : ℚ) : AppState :=
  if amount ≤ 0 then s
  else { s with cash_balance := s.cash_balance - amount }

/-- AppState.rs `deposit_sell`. -/
def deposit_sell (s : AppState) (amount : ℚ) : AppState :=
  { s with cash_balance := s.cash_balance + amount }

/-- AppState.rs `add_trade`. -/
def add_trade (s : AppState) (trade_to_add : Trade) : AppState :=
  { s with trades := s.trades ++ [trade_to_add] }

/-- AppState.rs `get_ticker_holdings_qty`. -/
def get_ticker_holdings_qty (s : AppState) (ticker : Symbol) : ℚ :=
  match hmGet s.holdings ticker with
  | some holding => holding.quantity
  | none => 0

/-- AppState.rs `get_available_holdings_qty`: held quantity net of pending
sell orders for the ticker. -/
def get_available_holdings_qty (s : AppState) (ticker : Symbol) : ℚ :=
  s.open_orders.foldl
    (fun qty o =>
      if o.get_side = Side.Sell ∧ o.get_symbol = ticker then qty - o.get_qty else qty)
    (get_ticker_holdings_qty s ticker)

/-- AppState.rs `get_available_cash`: cash net of pending buy orders. -/
def get_available_cash (s : AppState) : ℚ :=
  s.open_orders.foldl
    (fun cash o =>
      if o.get_side = Side.Buy then cash - o.get_price_per * o.get_qty else cash)
    s.cash_balance

/-- `Decimal::partial_cmp` on non-NaN values: a total comparison. -/
def cmpQ (x y : ℚ) : Ordering :=
  if x < y then Ordering.lt else if x = y then Ordering.eq else Ordering.gt

/-- The comparator passed to the second `sort_by` in AppState.rs
`open_order_sorting`: orders of different side or symbol compare Equal;
within a (side, symbol) group, buys compare `a.price cmp b.price` and sells
compare `b.price cmp a.price`. -/
def orderCmp (a b : OpenOrder) : Ordering :=
  if a.get_side ≠ b.get_side ∨ a.get_symbol ≠ b.get_symbol then Ordering.eq
  else if a.get_side = Side.Buy then cmpQ a.get_price_per b.get_price_per
  else cmpQ b.get_price_per a.get_price_per

/-- The ≤-form of `orderCmp` used to run the stable sort. -/
def cmpLE (a b : OpenOrder) : Prop := orderCmp a b ≠ Ordering.gt

instance : DecidableRel cmpLE := fun a b =>
  inferInstanceAs (Decidable (orderCmp a b ≠ Ordering.gt))

/-- The key relation of the first pass, `sort_by_key(|o| o.get_timestamp())`. -/
def tsLE (a b : OpenOrder) : Prop := a.get_timestamp ≤ b.get_timestamp

instance : DecidableRel tsLE := fun a b =>
  inferInstanceAs (Decidable (a.get_timestamp ≤ b.get_timestamp))

instance : IsTotal OpenOrder tsLE := ⟨fun _ _ => Int.le_total _ _⟩

instance : IsTrans OpenOrder tsLE := ⟨fun _ _ _ h1 h2 => le_trans h1 h2⟩

/-- AppState.rs `open_order_sorting`: a stable sort by timestamp followed by
a stable sort with `orderCmp`. -/
def open_order_sorting (order_arr : List OpenOrder) : List OpenOrder :=
  List.insertionSort cmpLE (List.insertionSort tsLE order_arr)

/-- The match used by AppState.rs `remove_from_open_orders`'s `retain`
closure: symbol, price and quantity all equal (variant ignored). -/
def order_matches (order order_to_remove : OpenOrder) : Prop :=
  order.get_symbol = order_to_remove.get_symbol ∧
  order.get_price_per = order_to_remove.get_price_per ∧
  order.get_qty = order_to_remove.get_qty

instance : DecidableRel order_matches := fun _ _ =>
  inferInstanceAs (Decidable (And _ _))

/-- The rejection branch taken by AppState.rs `add_open_order` (the Rust code
prints a message and returns; the branch is surfaced as a value). -/
inductive AddOrderError where
  | InsufficientHoldings
  | InsufficientFunds
deriving DecidableEq

/-- AppState.rs `add_open_order`: validate against available holdings (sell)
or available cash (buy); on success push the order and re-sort the book. -/
def add_open_order (s : AppState) (new_order : OpenOrder) :
    AppState × Option AddOrderError :=
  if new_order.get_side = Side.Sell then
    if get_available_holdings_qty s new_order.get_symbol - new_order.get_qty < 0 then
      (s, some AddOrderError.InsufficientHoldings)
    else
      ({ s with open_orders := open_order_sorting (s.open_orders ++ [new_order]) }, none)
  else
    if get_available_cash s < new_order.get_qty * new_order.get_price_per then
      (s, some AddOrderError.InsufficientFunds)
    else
      ({ s with open_orders := open_order_sorting (s.open_orders ++ [new_order]) }, none)

/-- AppState.rs `remove_from_open_orders`: retain non-matching orders, then
re-sort. -/
def remove_from_open_orders (s : AppState) (order_to_remove : OpenOrder) : AppState :=
  { s with
    open_orders :=
      open_order_sorting
        (s.open_orders.filter (fun order => decide (¬ order_matches order order_to_remove))) }

/-- FinanceProvider.rs `curr_price`: `Err(_)` becomes `Decimal::ZERO`. -/
def curr_price (fetched : Option ℚ) : ℚ := fetched.getD 0

/-- FinanceProvider.rs `previous_price_close`: `Err(_)` becomes `Decimal::ZERO`. -/
def previous_price_close (fetched : Option ℚ) : ℚ := fetched.getD 0

/-- Finance.rs `add_to_holdings`: insert a new position at cost `price_per`,
or fold into the existing position at the weighted-average cost. -/
def add_to_holdings (ticker : Symbol) (quantity price_per : ℚ) (s : AppState) : AppState :=
  match hmGet s.holdings ticker with
  | some existing_holding =>
    let prev_avg_cost := existing_holding.avg_cost
    let prev_qty := existing_holding.quantity
    let new_avg_cost := (prev_qty * prev_avg_cost + quantity * price_per) / (prev_qty + quantity)
    let new_qty := prev_qty + quantity
    { s with holdings := hmInsert s.holdings ticker ⟨ticker, new_qty, new_avg_cost⟩ }
  | none =>
    { s with holdings := hmInsert s.holdings ticker ⟨ticker, quantity, price_per⟩ }

/-- Finance.rs `remove_from_holdings`. Note: when `new_qty = 0` the Rust code
removes the entry from a local copy of the map but `set_holdings_map` is only
called in the `else` branch, so the state keeps its previous holdings. -/
def remove_from_holdings (ticker : Symbol) (quantity : ℚ) (s : AppState) : AppState :=
  match hmGet s.holdings ticker with
  | some existing_holding =>
    let prev_avg_cost := existing_holding.avg_cost
    let prev_qty := existing_holding.quantity
    let new_qty := prev_qty - quantity
    if new_qty = 0 then s
    else { s with holdings := hmInsert s.holdings ticker ⟨ticker, new_qty, prev_avg_cost⟩ }
  | none => s

/-- Finance.rs `sell` (market sell), after the user inputs and the price
fetch have resolved. -/
def sell (ticker : Symbol) (quantity : ℚ) (fetched : Option ℚ) (s : AppState)
    (now : ℤ) : AppState :=
  let curr := previous_price_close fetched
  let total_price := curr * quantity
  if get_ticker_holdings_qty s ticker < quantity then s
  else
    add_trade (remove_from_holdings ticker quantity (deposit_sell s total_price))
      (Trade.sell ticker quantity curr now)

/-- Finance.rs `buy` (market buy), after the user inputs and the price fetch
have resolved. -/
def buy (symbol : Symbol) (purchase_qty : ℚ) (fetched : Option ℚ) (s : AppState)
    (now : ℤ) : AppState :=
  let curr := previous_price_close fetched
  let total_price := curr * purchase_qty
  if s.cash_balance < total_price then s
  else
    add_trade (add_to_holdings symbol purchase_qty curr (withdraw_purchase s total_price))
      (Trade.buy symbol purchase_qty curr now)

/-- Orders.rs `buy_limit`: execute a BuyLimit order at the live price when it
is at or below the limit, subject to a funds check at the live price. -/
def buy_limit (s : AppState) (order : OpenOrder) (fetched : Option ℚ) (now : ℤ) :
    AppState × Bool :=
  let symbol := order.get_symbol
  let limit_price := order.get_price_per
  let purchase_qty := order.get_qty
  let curr_cash := s.cash_balance
  let curr := curr_price fetched
  let total_purchase_value := curr * purchase_qty
  if curr ≤ limit_price then
    if total_purchase_value > curr_cash then (s, false)
    else
      (add_trade
        (add_to_holdings symbol purchase_qty curr (withdraw_purchase s total_purchase_value))
        (Trade.buy symbol purchase_qty curr now), true)
  else (s, false)

/-- Orders.rs `sell_stop_loss`: execute a StopLoss sell at the live price when
it is at or below the stop price; no holdings check. -/
def sell_stop_loss (s : AppState) (order : OpenOrder) (fetched : Option ℚ) (now : ℤ) :
    AppState × Bool :=
  let symbol := order.get_symbol
  let limit_price := order.get_price_per
  let sale_qty := order.get_qty
  let curr := curr_price fetched
  let total_sale_value := curr * sale_qty
  if curr ≤ limit_price then
    (add_trade (remove_from_holdings symbol sale_qty (deposit_sell s total_sale_value))
      (Trade.sell symbol sale_qty curr now), true)
  else (s, false)

/-- Orders.rs `sell_take_profit`: execute a TakeProfit sell at the trigger
price when the live price is at or above it; no holdings check. -/
def sell_take_profit (s : AppState) (order : OpenOrder) (fetched : Option ℚ) (now : ℤ) :
    AppState × Bool :=
  let symbol := order.get_symbol
  let take_profit_price := order.get_price_per
  let sale_qty := order.get_qty
  let curr := curr_price fetched
  let total_sale_value := take_profit_price * sale_qty
  if curr ≥ take_profit_price then
    (add_trade (remove_from_holdings symbol sale_qty (deposit_sell s total_sale_value))
      (Trade.sell symbol sale_qty take_profit_price now), true)
  else (s, false)

/-- One order evaluation inside AppState.rs `monitor_order`'s loop: dispatch
on the order variant, fetching this tick's price for the order's symbol. -/
def evalOrder (fetch : Symbol → Option ℚ) (now : ℤ) (s : AppState) (o : OpenOrder) :
    AppState × Bool :=
  match o with
  | OpenOrder.BuyLimit _ _ _ _ => buy_limit s o (fetch o.get_symbol) now
  | OpenOrder.StopLoss _ _ _ _ => sell_stop_loss s o (fetch o.get_symbol) now
  | OpenOrder.TakeProfit _ _ _ _ => sell_take_profit s o (fetch o.get_symbol) now

/-- One tick of AppState.rs `monitor_order`: snapshot the book, evaluate each
order collecting the executed ones, then remove the executed orders. -/
def tick (fetch : Symbol → Option ℚ) (now : ℤ) (s : AppState) : AppState :=
  let eval :=
    s.open_orders.foldl
      (fun acc o =>
        let r := evalOrder fetch now acc.1 o
        (r.1, if r.2 then acc.2 ++ [o] else acc.2))
      (s, ([] : List OpenOrder))
  eval.2.foldl (fun st o => remove_from_open_orders st o) eval.1

/-- The canonical sort order exactly as claim C3 states it: entries ordered
by submission timestamp ascending, except that within orders sharing the same
(side, symbol) pair, buy-side orders appear in descending order of price and
sell-side orders in ascending order of price. Written from the claim for
comparison against `open_order_sorting` (refinement check). -/
def spec_canonical_order (l : List OpenOrder) : Prop :=
  l.Pairwise (fun a b =>
    ((a.get_side = b.get_side ∧ a.get_symbol = b.get_symbol) →
      (a.get_side = Side.Buy → b.get_price_per ≤ a.get_price_per) ∧
      (a.get_side = Side.Sell → a.get_price_per ≤ b.get_price_per)) ∧
    (¬ (a.get_side = b.get_side ∧ a.get_symbol = b.get_symbol) →
      a.get_timestamp ≤ b.get_timestamp))

/-- Adjacent-pair price discipline actually enforced by `open_order_sorting`:
within a (side, symbol) group, buys ascend and sells descend by price. -/
def adjPriceOK (a b : OpenOrder) : Prop :=
  a.get_side = b.get_side → a.get_symbol = b.get_symbol →
    (a.get_side = Side.Buy → a.get_price_per ≤ b.get_price_per) ∧
    (a.get_side = Side.Sell → b.get_price_per ≤ a.get_price_per)

/-- Orders of different symbols or opposite sides stay in timestamp order. -/
def crossGroupTs (a b : OpenOrder) : Prop :=
  ¬ (a.get_side = b.get_side ∧ a.get_symbol = b.get_symbol) →
    a.get_timestamp ≤ b.get_timestamp

/-- C1 failing input: an open StopLoss order on a held symbol whose price
fetch fails this tick. -/
def c1_state : AppState :=
  ⟨1000, [("AAPL", ⟨"AAPL", 10, 150⟩)], [], [OpenOrder.StopLoss "AAPL" 5 140 0]⟩

def c1_order : OpenOrder := OpenOrder.StopLoss "AAPL" 5 140 0

/-- C2 failing input: a ledger holding exactly 10 AAPL. -/
def c2_state : AppState := ⟨2000, [("AAPL", ⟨"AAPL", 10, 150⟩)], [], []⟩

/-- C4 failing input for `withdraw`: all cash is reserved by a pending
BuyLimit order, so `available_cash` is exactly 0. -/
def c4_state_withdraw : AppState := ⟨100, [], [], [OpenOrder.BuyLimit "AAPL" 1 100 0]⟩

/-- C4 failing input for market `sell`: all 10 held AAPL are reserved by a
pending StopLoss order, so `available_holdings("AAPL")` is exactly 0. -/
def c4_state_sell : AppState :=
  ⟨1000, [("AAPL", ⟨"AAPL", 10, 150⟩)], [], [OpenOrder.StopLoss "AAPL" 10 140 0]⟩

/-- C6 scenario state: ample cash and one BuyLimit order at trigger 150. -/
def buy_limit_demo_state : AppState := ⟨10000, [], [], [OpenOrder.BuyLimit "AAPL" 1 150 0]⟩

/-- C6 scenario state with insufficient cash for the purchase. -/
def buy_limit_demo_poor : AppState := ⟨100, [], [], [OpenOrder.BuyLimit "AAPL" 1 150 0]⟩

/-! ### Helper lemmas -/

@[simp]
theorem hmGet_hmInsert_self (m : HoldingsMap) (k : Symbol) (v : Holding) :
    hmGet (hmInsert m k v) k = some v := by
  induction m with
  | nil => simp [hmInsert, hmGet]
  | cons p rest ih =>
    obtain ⟨k', v'⟩ := p
    by_cases h : k' = k <;> simp [hmInsert, hmGet, h, ih]

@[simp]
theorem add_to_holdings_cash (t : Symbol) (q p : ℚ) (s : AppState) :
    (add_to_holdings t q p s).cash_balance = s.cash_balance := by
  unfold add_to_holdings
  cases hmGet s.holdings t <;> rfl

@[simp]
theorem add_to_holdings_trades (t : Symbol) (q p : ℚ) (s : AppState) :
    (add_to_holdings t q p s).trades = s.trades := by
  unfold add_to_holdings
  cases hmGet s.holdings t <;> rfl

@[simp]
theorem add_to_holdings_orders (t : Symbol) (q p : ℚ) (s : AppState) :
    (add_to_holdings t q p s).open_orders = s.open_orders := by
  unfold add_to_holdings
  cases hmGet s.holdings t <;> rfl

@[simp]
theorem remove_from_holdings_cash (t : Symbol) (q : ℚ) (s : AppState) :
    (remove_from_holdings t q s).cash_balance = s.cash_balance := by
  unfold remove_from_holdings
  cases hmGet s.holdings t with
  | none => rfl
  | some h => by_cases h0 : h.quantity - q = 0 <;> simp [h0]

@[simp]
theorem remove_from_holdings_trades (t : Symbol) (q : ℚ) (s : AppState) :
    (remove_from_holdings t q s).trades = s.trades := by
  unfold remove_from_holdings
  cases hmGet s.holdings t with
  | none => rfl
  | some h => by_cases h0 : h.quantity - q = 0 <;> simp [h0]

@[simp]
theorem remove_from_holdings_orders (t : Symbol) (q : ℚ) (s : AppState) :
    (remove_from_holdings t q s).open_orders = s.open_orders := by
  unfold remove_from_holdings
  cases hmGet s.holdings t with
  | none => rfl
  | some h => by_cases h0 : h.quantity - q = 0 <;> simp [h0]

theorem remove_from_holdings_not_held (t : Symbol) (q : ℚ) (s : AppState)
    (h : hmGet s.holdings t = none) : (remove_from_holdings t q s).holdings = s.holdings := by
  unfold remove_from_holdings
  rw [h]

@[simp]
theorem withdraw_purchase_holdings (s : AppState) (a : ℚ) :
    (withdraw_purchase s a).holdings = s.holdings := by
  unfold withdraw_purchase
  split <;> rfl

@[simp]
theorem withdraw_purchase_trades (s : AppState) (a : ℚ) :
    (withdraw_purchase s a).trades = s.trades := by
  unfold withdraw_purchase
  split <;> rfl

@[simp]
theorem withdraw_purchase_orders (s : AppState) (a : ℚ) :
    (withdraw_purchase s a).open_orders = s.open_orders := by
  unfold withdraw_purchase
  split <;> rfl

theorem withdraw_purchase_cash_pos (s : AppState) (a : ℚ) (h : 0 < a) :
    (withdraw_purchase s a).cash_balance = s.cash_balance - a := by
  unfold withdraw_purchase
  rw [if_neg (not_le.mpr h)]

@[simp]
theorem deposit_sell_fields (s : AppState) (a : ℚ) :
    (deposit_sell s a).holdings = s.holdings ∧ (deposit_sell s a).trades = s.trades ∧
    (deposit_sell s a).open_orders = s.open_orders ∧
    (deposit_sell s a).cash_balance = s.cash_balance + a :=
  ⟨rfl, rfl, rfl, rfl⟩

@[simp]
theorem add_trade_fields (s : AppState) (t : Trade) :
    (add_trade s t).holdings = s.holdings ∧ (add_trade s t).cash_balance = s.cash_balance ∧
    (add_trade s t).open_orders = s.open_orders ∧
    (add_trade s t).trades = s.trades ++ [t] :=
  ⟨rfl, rfl, rfl, rfl⟩

theorem open_order_sorting_perm (l : List OpenOrder) : (open_order_sorting l).Perm l :=
  (List.perm_insertionSort cmpLE _).trans (List.perm_insertionSort tsLE l)

theorem cmpQ_eq_gt (x y : ℚ) : cmpQ x y = Ordering.gt ↔ y < x := by
  unfold cmpQ
  rcases lt_trichotomy x y with h | h | h
  · simp [h, asymm h, ne_of_lt h]
  · simp [h]
  · simp [asymm h, (ne_of_lt h).symm, h]

theorem orderCmp_gt_same_group {a b : OpenOrder} (h : orderCmp a b = Ordering.gt) :
    a.get_side = b.get_side ∧ a.get_symbol = b.get_symbol := by
  by_contra hc
  unfold orderCmp at h
  rw [if_pos] at h
  · exact Ordering.noConfusion h
  · rcases Decidable.not_and_iff_or_not.mp hc with h1 | h1
    · exact Or.inl h1
    · exact Or.inr h1

theorem cmpLE_total (a b : OpenOrder) : cmpLE a b ∨ cmpLE b a := by
  by_cases hab : cmpLE a b
  · exact Or.inl hab
  · right
    unfold cmpLE at hab ⊢
    rw [not_not] at hab
    obtain ⟨hside, hsym⟩ := orderCmp_gt_same_group hab
    unfold orderCmp at hab ⊢
    rw [if_neg (by simp [hside, hsym])] at hab
    rw [if_neg (by simp [hside, hsym])]
    rw [← hside]
    by_cases hb : a.get_side = Side.Buy
    · rw [if_pos hb] at hab
      rw [if_pos hb]
      intro hgt
      exact absurd ((cmpQ_eq_gt _ _).mp hab) (asymm ((cmpQ_eq_gt _ _).mp hgt))
    · rw [if_neg hb] at hab
      rw [if_neg hb]
      intro hgt
      exact absurd ((cmpQ_eq_gt _ _).mp hab) (asymm ((cmpQ_eq_gt _ _).mp hgt))

theorem pairwise_orderedInsert_of_swap (r Q : OpenOrder → OpenOrder → Prop)
    [DecidableRel r] (a : OpenOrder) (l : List OpenOrder) (hl : l.Pairwise Q)
    (ha : ∀ b ∈ l, Q a b) (hswap : ∀ b ∈ l, ¬ r a b → Q b a) :
    (List.orderedInsert r a l).Pairwise Q := by
  induction l with
  | nil => simp [List.orderedInsert]
  | cons b l ih =>
    rw [List.orderedInsert]
    by_cases hr : r a b
    · rw [if_pos hr]
      exact List.Pairwise.cons ha hl
    · rw [if_neg hr]
      rw [List.pairwise_cons] at hl
      refine List.Pairwise.cons ?_ ?_
      · intro x hx
        rcases (List.mem_orderedInsert r).mp hx with hxa | hxl
        · subst hxa
          exact hswap b (by simp) hr
        · exact hl.1 x hxl
      · exact ih hl.2 (fun x hx => ha x (by simp [hx]))
          (fun x hx hrx => hswap x (by simp [hx]) hrx)

theorem pairwise_insertionSort_of_swap (r Q : OpenOrder → OpenOrder → Prop)
    [DecidableRel r] (hswap : ∀ x y, ¬ r x y → Q x y → Q y x) (l : List OpenOrder)
    (hl : l.Pairwise Q) : (List.insertionSort r l).Pairwise Q := by
  induction l with
  | nil => simp [List.insertionSort]
  | cons a l ih =>
    rw [List.insertionSort]
    rw [List.pairwise_cons] at hl
    refine pairwise_orderedInsert_of_swap r Q a _ (ih hl.2) ?_ ?_
    · intro b hb
      exact hl.1 b ((List.mem_insertionSort r).mp hb)
    · intro b hb hr
      exact hswap a b hr (hl.1 b ((List.mem_insertionSort r).mp hb))

theorem chain'_orderedInsert (r : OpenOrder → OpenOrder → Prop) [DecidableRel r]
    (htot : ∀ x y, r x y ∨ r y x) (a : OpenOrder) (l : List OpenOrder)
    (hl : l.Chain' r) : (List.orderedInsert r a l).Chain' r := by
  induction l with
  | nil => exact List.chain'_singleton a
  | cons b l ih =>
    rw [List.orderedInsert]
    by_cases hr : r a b
    · rw [if_pos hr]
      exact List.chain'_cons.mpr ⟨hr, hl⟩
    · rw [if_neg hr]
      refine List.chain'_cons'.mpr ⟨?_, ih hl.tail⟩
      intro y hy
      cases l with
      | nil =>
        simp [List.orderedInsert] at hy
        subst hy
        exact (htot a b).resolve_left hr
      | cons c l' =>
        rw [List.orderedInsert] at hy
        by_cases hrc : r a c
        · rw [if_pos hrc] at hy
          simp at hy
          subst hy
          exact (htot a b).resolve_left hr
        · rw [if_neg hrc] at hy
          simp at hy
          subst hy
          exact (List.chain'_cons.mp hl).1

theorem chain'_insertionSort (r : OpenOrder → OpenOrder → Prop) [DecidableRel r]
    (htot : ∀ x y, r x y ∨ r y x) (l : List OpenOrder) :
    (List.insertionSort r l).Chain' r := by
  induction l with
  | nil => exact List.chain'_nil
  | cons a l ih =>
    rw [List.insertionSort]
    exact chain'_orderedInsert r htot a _ ih

/-! ### Claim theorems -/

/-- C1: the claim says a failed price fetch must leave the order untriggered
and the ledger untouched. The code maps a failed fetch to price 0, so an open
StopLoss order (trigger 140) executes: it returns true, appends a Sell trade
at price 0, cuts the holding from 10 to 5, and the tick removes the order
from the book. -/
theorem stop_loss_fetch_failure_executes :
    (sell_stop_loss c1_state c1_order none 7).2 = true
  ∧ (sell_stop_loss c1_state c1_order none 7).1.trades = [Trade.sell "AAPL" 5 0 7]
  ∧ (sell_stop_loss c1_state c1_order none 7).1.holdings = [("AAPL", ⟨"AAPL", 5, 150⟩)]
  ∧ (sell_stop_loss c1_state c1_order none 7).1.cash_balance = 1000
  ∧ (tick (fun _ => none) 7 c1_state).open_orders = [] := by
  norm_num [c1_state, c1_order, tick, evalOrder, sell_stop_loss, curr_price,
    OpenOrder.get_symbol, OpenOrder.get_qty, OpenOrder.get_price_per,
    remove_from_open_orders, order_matches, remove_from_holdings, hmGet, hmInsert,
    deposit_sell, add_trade, open_order_sorting, List.insertionSort, List.orderedInsert,
    List.filter, Trade.sell]

/-- C2: the claim says a sell that brings the quantity to exactly 0 removes
the Holding. In the code the removal happens on a local copy of the map and
`set_holdings_map` is only called in the nonzero branch, so selling all 10
units leaves the ledger's holdings untouched; a partial sell (10 - 4 = 6)
does persist with `avg_cost` unchanged. -/
theorem remove_from_holdings_zero_qty_not_persisted :
    (remove_from_holdings "AAPL" 10 c2_state).holdings = [("AAPL", ⟨"AAPL", 10, 150⟩)]
  ∧ (remove_from_holdings "AAPL" 4 c2_state).holdings = [("AAPL", ⟨"AAPL", 6, 150⟩)] := by
  norm_num [c2_state, remove_from_holdings, hmGet, hmInsert]

/-- C4: the claim says no single ledger operation may drive `available_cash`
or `available_holdings` negative when they start nonnegative. `withdraw`
checks only `cash_balance`, so withdrawing 50 from a state whose 100 cash is
fully reserved by a BuyLimit order leaves `available_cash = -50`; a market
`sell` checks only `get_ticker_holdings_qty`, so selling 6 of 10 held units
that are fully reserved by a StopLoss order leaves
`available_holdings("AAPL") = -6`. -/
theorem withdraw_and_sell_break_available_nonneg :
    (get_available_cash c4_state_withdraw = 0
      ∧ (∀ sym, get_available_holdings_qty c4_state_withdraw sym = 0)
      ∧ get_available_cash (withdraw c4_state_withdraw 50) = -50)
  ∧ (get_available_cash c4_state_sell = 1000
      ∧ (∀ sym, 0 ≤ get_available_holdings_qty c4_state_sell sym)
      ∧ get_available_holdings_qty (sell "AAPL" 6 (some 100) c4_state_sell 9) "AAPL" = -6) := by
  refine ⟨⟨?_, ?_, ?_⟩, ?_, ?_, ?_⟩
  · norm_num [c4_state_withdraw, get_available_cash, OpenOrder.get_side,
      OpenOrder.get_price_per, OpenOrder.get_qty]
  · intro sym
    norm_num [c4_state_withdraw, get_available_holdings_qty, get_ticker_holdings_qty,
      hmGet, OpenOrder.get_side]
    exact fun h => nomatch h
  · norm_num [c4_state_withdraw, withdraw, get_available_cash, OpenOrder.get_side,
      OpenOrder.get_price_per, OpenOrder.get_qty]
  · norm_num [c4_state_sell, get_available_cash, OpenOrder.get_side]
    exact fun h => nomatch h
  · intro sym
    by_cases h : "AAPL" = sym
    · subst h
      norm_num [c4_state_sell, get_available_holdings_qty, get_ticker_holdings_qty,
        hmGet, OpenOrder.get_side, OpenOrder.get_symbol, OpenOrder.get_qty]
    · norm_num [c4_state_sell, get_available_holdings_qty, get_ticker_holdings_qty,
        hmGet, OpenOrder.get_side, OpenOrder.get_symbol, OpenOrder.get_qty, h]
  · norm_num [c4_state_sell, sell, previous_price_close, get_ticker_holdings_qty,
      get_available_holdings_qty, hmGet, hmInsert, remove_from_holdings, deposit_sell,
      add_trade, OpenOrder.get_side, OpenOrder.get_symbol, OpenOrder.get_qty]

/-- C7: a TakeProfit order with trigger T executes exactly when the live
price P satisfies P ≥ T, and it then sells at the trigger price T: cash is
credited T * quantity and the appended Sell trade records `price_per = T`,
even when P > T; otherwise the state is unchanged. -/
theorem sell_take_profit_spec (s : AppState) (sym : Symbol) (q T P : ℚ) (ts now : ℤ) :
    ((sell_take_profit s (OpenOrder.TakeProfit sym q T ts) (some P) now).2 = true ↔ P ≥ T)
  ∧ (P ≥ T →
      (sell_take_profit s (OpenOrder.TakeProfit sym q T ts) (some P) now).1.cash_balance
          = s.cash_balance + T * q
      ∧ (sell_take_profit s (OpenOrder.TakeProfit sym q T ts) (some P) now).1.trades
          = s.trades ++ [Trade.sell sym q T now])
  ∧ (¬ P ≥ T → sell_take_profit s (OpenOrder.TakeProfit sym q T ts) (some P) now = (s, false)) := by
  unfold sell_take_profit
  by_cases h : P ≥ T <;>
    simp [OpenOrder.get_symbol, OpenOrder.get_price_per, OpenOrder.get_qty,
      curr_price, h]

/-- Witness for C7 at live price 210 and trigger 200: the order executes and
the trade is recorded at 200, not 210. -/
theorem sell_take_profit_spec_witness :
    ((sell_take_profit AppState.new (OpenOrder.TakeProfit "AAPL" 3 200 0) (some 210) 1).2 = true
        ↔ (210 : ℚ) ≥ 200)
  ∧ ((210 : ℚ) ≥ 200 →
      (sell_take_profit AppState.new (OpenOrder.TakeProfit "AAPL" 3 200 0) (some 210) 1).1.cash_balance
          = AppState.new.cash_balance + 200 * 3
      ∧ (sell_take_profit AppState.new (OpenOrder.TakeProfit "AAPL" 3 200 0) (some 210) 1).1.trades
          = AppState.new.trades ++ [Trade.sell "AAPL" 3 200 1])
  ∧ (¬ (210 : ℚ) ≥ 200 →
      sell_take_profit AppState.new (OpenOrder.TakeProfit "AAPL" 3 200 0) (some 210) 1
        = (AppState.new, false)) :=
  sell_take_profit_spec AppState.new "AAPL" 3 200 210 0 1

/-- C8: buying quantity q at price p creates the holding ⟨q, p⟩ when the
symbol was not held, and otherwise updates it to the weighted-average cost
`(prev_qty * prev_avg + q * p) / (prev_qty + q)` with quantity `prev_qty + q`;
in particular 10 units at 100 then 10 at 200 yields quantity 20 at avg 150. -/
theorem add_to_holdings_spec (s : AppState) (ticker : Symbol) (q p : ℚ)
    (_hq : 0 < q) (_hp : 0 < p) :
    (hmGet s.holdings ticker = none →
      hmGet (add_to_holdings ticker q p s).holdings ticker = some ⟨ticker, q, p⟩)
  ∧ (∀ h0 : Holding, hmGet s.holdings ticker = some h0 →
      hmGet (add_to_holdings ticker q p s).holdings ticker =
        some ⟨ticker, h0.quantity + q, (h0.quantity * h0.avg_cost + q * p) / (h0.quantity + q)⟩)
  ∧ hmGet (add_to_holdings "AAPL" 10 200 (add_to_holdings "AAPL" 10 100 AppState.new)).holdings
      "AAPL" = some ⟨"AAPL", 20, 150⟩ := by
  refine ⟨?_, ?_, ?_⟩
  · intro h
    simp [add_to_holdings, h]
  · intro h0 h
    simp [add_to_holdings, h]
  · norm_num [add_to_holdings, AppState.new, hmGet, hmInsert]

/-- Witness for C8 at a fresh ledger with q = 1, p = 2. -/
theorem add_to_holdings_spec_witness :
    (hmGet AppState.new.holdings "A" = none →
      hmGet (add_to_holdings "A" 1 2 AppState.new).holdings "A" = some ⟨"A", 1, 2⟩)
  ∧ (∀ h0 : Holding, hmGet AppState.new.holdings "A" = some h0 →
      hmGet (add_to_holdings "A" 1 2 AppState.new).holdings "A" =
        some ⟨"A", h0.quantity + 1, (h0.quantity * h0.avg_cost + 1 * 2) / (h0.quantity + 1)⟩)
  ∧ hmGet (add_to_holdings "AAPL" 10 200 (add_to_holdings "AAPL" 10 100 AppState.new)).holdings
      "AAPL" = some ⟨"AAPL", 20, 150⟩ :=
  add_to_holdings_spec AppState.new "A" 1 2 (by norm_num) (by norm_num)

/-- C10: the sell-side execution routines perform no holdings check. Whenever
the trigger condition holds, they credit the full proceeds (P * q for
StopLoss, T * q for TakeProfit) and append a Sell trade, for every ledger
state — including one that does not hold the symbol at all, in which case the
holdings map is left unchanged while cash still grows by the proceeds. -/
theorem sell_orders_no_holdings_check (s : AppState) (sym : Symbol) (q T P : ℚ)
    (ts now : ℤ) :
    (P ≤ T →
      (sell_stop_loss s (OpenOrder.StopLoss sym q T ts) (some P) now).2 = true
      ∧ (sell_stop_loss s (OpenOrder.StopLoss sym q T ts) (some P) now).1.cash_balance
          = s.cash_balance + P * q
      ∧ (sell_stop_loss s (OpenOrder.StopLoss sym q T ts) (some P) now).1.trades
          = s.trades ++ [Trade.sell sym q P now]
      ∧ (hmGet s.holdings sym = none →
          (sell_stop_loss s (OpenOrder.StopLoss sym q T ts) (some P) now).1.holdings
            = s.holdings))
  ∧ (T ≤ P →
      (sell_take_profit s (OpenOrder.TakeProfit sym q T ts) (some P) now).2 = true
      ∧ (sell_take_profit s (OpenOrder.TakeProfit sym q T ts) (some P) now).1.cash_balance
          = s.cash_balance + T * q
      ∧ (sell_take_profit s (OpenOrder.TakeProfit sym q T ts) (some P) now).1.trades
          = s.trades ++ [Trade.sell sym q T now]
      ∧ (hmGet s.holdings sym = none →
          (sell_take_profit s (OpenOrder.TakeProfit sym q T ts) (some P) now).1.holdings
            = s.holdings)) := by
  constructor
  · intro h
    unfold sell_stop_loss
    simp only [OpenOrder.get_symbol, OpenOrder.get_price_per, OpenOrder.get_qty,
      curr_price, Option.getD_some]
    rw [if_pos h]
    refine ⟨rfl, by simp, by simp, ?_⟩
    intro hnone
    exact remove_from_holdings_not_held sym q _ hnone
  · intro h
    unfold sell_take_profit
    simp only [OpenOrder.get_symbol, OpenOrder.get_price_per, OpenOrder.get_qty,
      curr_price, Option.getD_some]
    rw [if_pos (by exact h)]
    refine ⟨rfl, by simp, by simp, ?_⟩
    intro hnone
    exact remove_from_holdings_not_held sym q _ hnone

/-- Witness for C10 on a ledger that holds nothing, at P = T = 150, q = 5:
both routines execute, credit 750, append the trade, and leave the empty
holdings map unchanged. -/
theorem sell_orders_no_holdings_check_witness :
    ((150 : ℚ) ≤ 150 →
      (sell_stop_loss AppState.new (OpenOrder.StopLoss "AAPL" 5 150 0) (some 150) 2).2 = true
      ∧ (sell_stop_loss AppState.new (OpenOrder.StopLoss "AAPL" 5 150 0) (some 150) 2).1.cash_balance
          = AppState.new.cash_balance + 150 * 5
      ∧ (sell_stop_loss AppState.new (OpenOrder.StopLoss "AAPL" 5 150 0) (some 150) 2).1.trades
          = AppState.new.trades ++ [Trade.sell "AAPL" 5 150 2]
      ∧ (hmGet AppState.new.holdings "AAPL" = none →
          (sell_stop_loss AppState.new (OpenOrder.StopLoss "AAPL" 5 150 0) (some 150) 2).1.holdings
            = AppState.new.holdings))
  ∧ ((150 : ℚ) ≤ 150 →
      (sell_take_profit AppState.new (OpenOrder.TakeProfit "AAPL" 5 150 0) (some 150) 2).2 = true
      ∧ (sell_take_profit AppState.new (OpenOrder.TakeProfit "AAPL" 5 150 0) (some 150) 2).1.cash_balance
          = AppState.new.cash_balance + 150 * 5
      ∧ (sell_take_profit AppState.new (OpenOrder.TakeProfit "AAPL" 5 150 0) (some 150) 2).1.trades
          = AppState.new.trades ++ [Trade.sell "AAPL" 5 150 2]
      ∧ (hmGet AppState.new.holdings "AAPL" = none →
          (sell_take_profit AppState.new (OpenOrder.TakeProfit "AAPL" 5 150 0) (some 150) 2).1.holdings
            = AppState.new.holdings)) :=
  sell_orders_no_holdings_check AppState.new "AAPL" 5 150 150 0 2

/-- C5: `add_open_order` rejects a sell-side order with InsufficientHoldings
exactly when `available_holdings(symbol) - quantity < 0`, rejects a buy-side
order with InsufficientFunds exactly when
`available_cash < quantity * trigger_price`, leaves the whole state unchanged
on rejection, and on success appends the order and re-sorts the book. -/
theorem add_open_order_spec (s : AppState) (o : OpenOrder) :
    ((add_open_order s o).2 = some AddOrderError.InsufficientHoldings ↔
      o.get_side = Side.Sell ∧ get_available_holdings_qty s o.get_symbol - o.get_qty < 0)
  ∧ ((add_open_order s o).2 = some AddOrderError.InsufficientFunds ↔
      o.get_side = Side.Buy ∧ get_available_cash s < o.get_qty * o.get_price_per)
  ∧ ((add_open_order s o).2.isSome → (add_open_order s o).1 = s)
  ∧ ((add_open_order s o).2 = none →
      (add_open_order s o).1 =
        { s with open_orders := open_order_sorting (s.open_orders ++ [o]) }) := by
  unfold add_open_order
  cases hside : o.get_side with
  | Buy =>
    by_cases hcond : get_available_cash s < o.get_qty * o.get_price_per <;>
      simp [hside, hcond]
  | Sell =>
    by_cases hcond : get_available_holdings_qty s o.get_symbol - o.get_qty < 0 <;>
      simp [hside, hcond]

/-- Witness for C5: a buy order for 2 units at 100 against 50 cash is
rejected with InsufficientFunds and the state is untouched. -/
theorem add_open_order_spec_witness :
    ((add_open_order ⟨50, [], [], []⟩ (OpenOrder.BuyLimit "AAPL" 2 100 0)).2
        = some AddOrderError.InsufficientHoldings ↔
      (OpenOrder.BuyLimit "AAPL" 2 100 0).get_side = Side.Sell ∧
        get_available_holdings_qty ⟨50, [], [], []⟩
            (OpenOrder.BuyLimit "AAPL" 2 100 0).get_symbol
          - (OpenOrder.BuyLimit "AAPL" 2 100 0).get_qty < 0)
  ∧ ((add_open_order ⟨50, [], [], []⟩ (OpenOrder.BuyLimit "AAPL" 2 100 0)).2
        = some AddOrderError.InsufficientFunds ↔
      (OpenOrder.BuyLimit "AAPL" 2 100 0).get_side = Side.Buy ∧
        get_available_cash ⟨50, [], [], []⟩
          < (OpenOrder.BuyLimit "AAPL" 2 100 0).get_qty
            * (OpenOrder.BuyLimit "AAPL" 2 100 0).get_price_per)
  ∧ ((add_open_order ⟨50, [], [], []⟩ (OpenOrder.BuyLimit "AAPL" 2 100 0)).2.isSome →
      (add_open_order ⟨50, [], [], []⟩ (OpenOrder.BuyLimit "AAPL" 2 100 0)).1
        = ⟨50, [], [], []⟩)
  ∧ ((add_open_order ⟨50, [], [], []⟩ (OpenOrder.BuyLimit "AAPL" 2 100 0)).2 = none →
      (add_open_order ⟨50, [], [], []⟩ (OpenOrder.BuyLimit "AAPL" 2 100 0)).1
        = { (⟨50, [], [], []⟩ : AppState) with
            open_orders :=
              open_order_sorting (([] : List OpenOrder) ++ [OpenOrder.BuyLimit "AAPL" 2 100 0]) }) :=
  add_open_order_spec ⟨50, [], [], []⟩ (OpenOrder.BuyLimit "AAPL" 2 100 0)

/-- C9: `remove_from_open_orders` deletes every open order whose symbol,
trigger price and quantity equal those of the given order (the variant being
implied), keeps exactly the non-matching ones (up to the re-sort), touches no
other ledger field, and is a no-op on a canonically sorted book containing no
match. -/
theorem remove_from_open_orders_spec (s : AppState) (o : OpenOrder) :
    (∀ x ∈ (remove_from_open_orders s o).open_orders, ¬ order_matches x o)
  ∧ ((remove_from_open_orders s o).open_orders).Perm
      (s.open_orders.filter (fun x => decide (¬ order_matches x o)))
  ∧ (remove_from_open_orders s o).cash_balance = s.cash_balance
  ∧ (remove_from_open_orders s o).holdings = s.holdings
  ∧ (remove_from_open_orders s o).trades = s.trades
  ∧ ((∀ x ∈ s.open_orders, ¬ order_matches x o) →
      open_order_sorting s.open_orders = s.open_orders →
      remove_from_open_orders s o = s) := by
  refine ⟨?_, open_order_sorting_perm _, rfl, rfl, rfl, ?_⟩
  · intro x hx
    have hmem := (open_order_sorting_perm
      (s.open_orders.filter (fun y => decide (¬ order_matches y o)))).mem_iff.mp hx
    simpa using (List.mem_filter.mp hmem).2
  · intro hnone hsorted
    have hfil : s.open_orders.filter (fun x => decide (¬ order_matches x o))
        = s.open_orders :=
      List.filter_eq_self.mpr (fun a ha => by simpa using hnone a ha)
    unfold remove_from_open_orders
    rw [hfil, hsorted]

/-- Witness for C9: removing an order matching nothing in a canonically
sorted one-order book leaves the state unchanged. -/
theorem remove_from_open_orders_spec_witness :
    (∀ x ∈ (remove_from_open_orders ⟨0, [], [], [OpenOrder.BuyLimit "AAPL" 1 100 0]⟩
        (OpenOrder.BuyLimit "MSFT" 1 100 0)).open_orders,
      ¬ order_matches x (OpenOrder.BuyLimit "MSFT" 1 100 0))
  ∧ ((remove_from_open_orders ⟨0, [], [], [OpenOrder.BuyLimit "AAPL" 1 100 0]⟩
        (OpenOrder.BuyLimit "MSFT" 1 100 0)).open_orders).Perm
      ([OpenOrder.BuyLimit "AAPL" 1 100 0].filter
        (fun x => decide (¬ order_matches x (OpenOrder.BuyLimit "MSFT" 1 100 0))))
  ∧ (remove_from_open_orders ⟨0, [], [], [OpenOrder.BuyLimit "AAPL" 1 100 0]⟩
      (OpenOrder.BuyLimit "MSFT" 1 100 0)).cash_balance = 0
  ∧ (remove_from_open_orders ⟨0, [], [], [OpenOrder.BuyLimit "AAPL" 1 100 0]⟩
      (OpenOrder.BuyLimit "MSFT" 1 100 0)).holdings = []
  ∧ (remove_from_open_orders ⟨0, [], [], [OpenOrder.BuyLimit "AAPL" 1 100 0]⟩
      (OpenOrder.BuyLimit "MSFT" 1 100 0)).trades = []
  ∧ ((∀ x ∈ [OpenOrder.BuyLimit "AAPL" 1 100 0],
        ¬ order_matches x (OpenOrder.BuyLimit "MSFT" 1 100 0)) →
      open_order_sorting [OpenOrder.BuyLimit "AAPL" 1 100 0]
        = [OpenOrder.BuyLimit "AAPL" 1 100 0] →
      remove_from_open_orders ⟨0, [], [], [OpenOrder.BuyLimit "AAPL" 1 100 0]⟩
        (OpenOrder.BuyLimit "MSFT" 1 100 0) = ⟨0, [], [], [OpenOrder.BuyLimit "AAPL" 1 100 0]⟩) :=
  remove_from_open_orders_spec ⟨0, [], [], [OpenOrder.BuyLimit "AAPL" 1 100 0]⟩
    (OpenOrder.BuyLimit "MSFT" 1 100 0)

/-- C6: a BuyLimit order with trigger T evaluated at live price P executes
exactly when P ≤ T and P * q does not exceed the cash balance, paying P per
unit (not T); when P ≤ T but funds are short, the tick leaves state and book
unchanged (skipped, not cancelled). The trigger-150 scenario over prices
[160, 155, 148] stays pending twice and fills the third tick at price 148. -/
theorem buy_limit_spec (s : AppState) (sym : Symbol) (q T P : ℚ) (ts now : ℤ)
    (hq : 0 < q) (hP : 0 < P) :
    ((buy_limit s (OpenOrder.BuyLimit sym q T ts) (some P) now).2 = true ↔
      P ≤ T ∧ ¬ P * q > s.cash_balance)
  ∧ (P ≤ T → P * q > s.cash_balance →
      buy_limit s (OpenOrder.BuyLimit sym q T ts) (some P) now = (s, false))
  ∧ ((buy_limit s (OpenOrder.BuyLimit sym q T ts) (some P) now).2 = true →
      (buy_limit s (OpenOrder.BuyLimit sym q T ts) (some P) now).1.cash_balance
          = s.cash_balance - P * q
      ∧ (buy_limit s (OpenOrder.BuyLimit sym q T ts) (some P) now).1.trades
          = s.trades ++ [Trade.buy sym q P now]
      ∧ (buy_limit s (OpenOrder.BuyLimit sym q T ts) (some P) now).1.open_orders
          = s.open_orders)
  ∧ (tick (fun _ => some 160) 1 buy_limit_demo_state = buy_limit_demo_state
      ∧ tick (fun _ => some 155) 2 buy_limit_demo_state = buy_limit_demo_state
      ∧ tick (fun _ => some 148) 3 buy_limit_demo_state
          = ⟨9852, [("AAPL", ⟨"AAPL", 1, 148⟩)], [Trade.buy "AAPL" 1 148 3], []⟩
      ∧ tick (fun _ => some 148) 3 buy_limit_demo_poor = buy_limit_demo_poor) := by
  refine ⟨?_, ?_, ?_, ?_, ?_, ?_, ?_⟩
  · unfold buy_limit
    by_cases h1 : P ≤ T <;>
      by_cases h2 : P * q > s.cash_balance <;>
        simp [OpenOrder.get_symbol, OpenOrder.get_price_per, OpenOrder.get_qty,
          curr_price, h1, h2]
  · intro h1 h2
    unfold buy_limit
    simp [OpenOrder.get_symbol, OpenOrder.get_price_per, OpenOrder.get_qty,
      curr_price, h1, h2]
  · intro hex
    unfold buy_limit at hex ⊢
    by_cases h1 : P ≤ T
    · by_cases h2 : P * q > s.cash_balance
      · simp [OpenOrder.get_symbol, OpenOrder.get_price_per, OpenOrder.get_qty,
          curr_price, h1, h2] at hex
      · simp only [OpenOrder.get_symbol, OpenOrder.get_price_per, OpenOrder.get_qty,
          curr_price, Option.getD_some]
        rw [if_pos h1, if_neg h2]
        refine ⟨?_, by simp, by simp⟩
        simp [withdraw_purchase_cash_pos s (P * q) (mul_pos hP hq)]
    · simp [OpenOrder.get_symbol, OpenOrder.get_price_per, OpenOrder.get_qty,
        curr_price, h1] at hex
  · norm_num [buy_limit_demo_state, tick, evalOrder, buy_limit, curr_price,
      OpenOrder.get_symbol, OpenOrder.get_qty, OpenOrder.get_price_per]
  · norm_num [buy_limit_demo_state, tick, evalOrder, buy_limit, curr_price,
      OpenOrder.get_symbol, OpenOrder.get_qty, OpenOrder.get_price_per]
  · norm_num [buy_limit_demo_state, tick, evalOrder, buy_limit, curr_price,
      OpenOrder.get_symbol, OpenOrder.get_qty, OpenOrder.get_price_per,
      remove_from_open_orders, order_matches, add_to_holdings, hmGet, hmInsert,
      withdraw_purchase, add_trade, open_order_sorting, List.insertionSort,
      List.orderedInsert, List.filter, Trade.buy]
  · norm_num [buy_limit_demo_poor, tick, evalOrder, buy_limit, curr_price,
      OpenOrder.get_symbol, OpenOrder.get_qty, OpenOrder.get_price_per]

/-- Witness for C6 at the scenario's third tick: trigger 150, live price 148,
quantity 1, ample cash. -/
theorem buy_limit_spec_witness :
    ((buy_limit buy_limit_demo_state (OpenOrder.BuyLimit "AAPL" 1 150 0) (some 148) 3).2 = true ↔
      (148 : ℚ) ≤ 150 ∧ ¬ (148 : ℚ) * 1 > buy_limit_demo_state.cash_balance)
  ∧ ((148 : ℚ) ≤ 150 → (148 : ℚ) * 1 > buy_limit_demo_state.cash_balance →
      buy_limit buy_limit_demo_state (OpenOrder.BuyLimit "AAPL" 1 150 0) (some 148) 3
        = (buy_limit_demo_state, false))
  ∧ ((buy_limit buy_limit_demo_state (OpenOrder.BuyLimit "AAPL" 1 150 0) (some 148) 3).2 = true →
      (buy_limit buy_limit_demo_state (OpenOrder.BuyLimit "AAPL" 1 150 0) (some 148) 3).1.cash_balance
          = buy_limit_demo_state.cash_balance - 148 * 1
      ∧ (buy_limit buy_limit_demo_state (OpenOrder.BuyLimit "AAPL" 1 150 0) (some 148) 3).1.trades
          = buy_limit_demo_state.trades ++ [Trade.buy "AAPL" 1 148 3]
      ∧ (buy_limit buy_limit_demo_state (OpenOrder.BuyLimit "AAPL" 1 150 0) (some 148) 3).1.open_orders
          = buy_limit_demo_state.open_orders)
  ∧ (tick (fun _ => some 160) 1 buy_limit_demo_state = buy_limit_demo_state
      ∧ tick (fun _ => some 155) 2 buy_limit_demo_state = buy_limit_demo_state
      ∧ tick (fun _ => some 148) 3 buy_limit_demo_state
          = ⟨9852, [("AAPL", ⟨"AAPL", 1, 148⟩)], [Trade.buy "AAPL" 1 148 3], []⟩
      ∧ tick (fun _ => some 148) 3 buy_limit_demo_poor = buy_limit_demo_poor) :=
  buy_limit_spec buy_limit_demo_state "AAPL" 1 150 148 0 3 (by norm_num) (by norm_num)

/-- C3 counterexample: two buy orders on the same symbol, price 10 at
timestamp 1 and price 20 at timestamp 2. `open_order_sorting` leaves them as
[price 10, price 20] (its comparator sorts buys ascending by price), which
violates the claimed canonical order demanding buy-side prices descending. -/
theorem open_order_sorting_claim_counterexample :
    ¬ spec_canonical_order (open_order_sorting
      [OpenOrder.BuyLimit "AAPL" 1 10 1, OpenOrder.BuyLimit "AAPL" 1 20 2]) := by
  have hs : open_order_sorting
      [OpenOrder.BuyLimit "AAPL" 1 10 1, OpenOrder.BuyLimit "AAPL" 1 20 2]
      = [OpenOrder.BuyLimit "AAPL" 1 10 1, OpenOrder.BuyLimit "AAPL" 1 20 2] := by
    norm_num [open_order_sorting, List.insertionSort, List.orderedInsert, tsLE, cmpLE,
      orderCmp, cmpQ, OpenOrder.get_side, OpenOrder.get_symbol, OpenOrder.get_price_per,
      OpenOrder.get_timestamp]
    decide
  rw [hs]
  intro h
  unfold spec_canonical_order at h
  rw [List.pairwise_cons] at h
  have h1 := (h.1 (OpenOrder.BuyLimit "AAPL" 1 20 2) (by simp)).1
  have h2 := (h1 (by simp [OpenOrder.get_side, OpenOrder.get_symbol])).1 rfl
  norm_num [OpenOrder.get_price_per] at h2

/-- C3 amended: after `open_order_sorting` the book is a permutation of its
entries in which orders of different symbols or opposite sides keep their
relative timestamp order, and adjacent orders sharing the same (side, symbol)
are ordered ascending by price on the buy side and descending by price on the
sell side — the directions opposite to the claim; price order within a group
is only enforced between adjacent entries. -/
theorem open_order_sorting_amended (l : List OpenOrder) :
    (open_order_sorting l).Perm l
  ∧ (open_order_sorting l).Pairwise crossGroupTs
  ∧ (open_order_sorting l).Chain' adjPriceOK := by
  refine ⟨open_order_sorting_perm l, ?_, ?_⟩
  · unfold open_order_sorting
    refine pairwise_insertionSort_of_swap cmpLE crossGroupTs ?_ _ ?_
    · intro x y hxy _ hc
      unfold cmpLE at hxy
      rw [not_not] at hxy
      obtain ⟨hside, hsym⟩ := orderCmp_gt_same_group hxy
      exact absurd ⟨hside.symm, hsym.symm⟩ hc
    · refine (List.sorted_insertionSort tsLE l).imp ?_
      intro a b h
      exact fun _ => h
  · unfold open_order_sorting
    refine (chain'_insertionSort cmpLE cmpLE_total _).imp ?_
    intro a b hab hside hsym
    unfold cmpLE orderCmp at hab
    rw [if_neg (by simp [hside, hsym])] at hab
    constructor
    · intro hbuy
      rw [if_pos hbuy] at hab
      exact not_lt.mp (fun hlt => hab ((cmpQ_eq_gt _ _).mpr hlt))
    · intro hsell
      rw [if_neg (by simp [hsell])] at hab
      exact not_lt.mp (fun hlt => hab ((cmpQ_eq_gt _ _).mpr hlt))

end Naviin
